import Mathlib

/-!
Shallow embedding of the valuation-lab core engines.

Sources:
- `src/app/page.tsx`: `clamp`, `irr` (Newton-Raphson IRR solver),
  `logNormalMonteCarlo`, the `dcfModel` memo (DCF engine with sensitivity
  grid) and the `lboModel` memo (LBO engine with debt-sweep recurrence).
- `src/unnamed/part_001` (the DCF API route): `computeDcf`, `validate`,
  `POST`.

Modelling conventions:
- JavaScript double arithmetic is embedded as exact arithmetic: the IRR
  and LBO engines (whose operations are all field operations, `max`,
  `min` and integer powers) are embedded over `ℚ` so that concrete runs
  can be evaluated by `decide`; the DCF engine (mid-year discounting
  raises `1+wacc` to a non-integer power) and the Monte Carlo simulator
  (`exp`, `log`, `cos`, `sqrt`) are embedded over `ℝ`.
- JavaScript `NaN` results are represented as `none` in an `Option`
  carrying the value: the sources produce `NaN` only at the Gordon
  terminal value when `wacc - g ≤ 0`, at division by `shares || NaN`
  when `shares = 0`, and at the IRR solver's explicit `return NaN`.
  Exact rationals and reals have no overflow, so JavaScript `isFinite`
  is modelled as constantly true.
-/

set_option maxHeartbeats 1000000

/-- Source `clamp` (src/app/page.tsx line 73, duplicated in
src/unnamed/part_001 line 6): `Math.max(a, Math.min(b, x))`. -/
def clamp {α : Type} [LinearOrder α] (x a b : α) : α := max a (min b x)

/-- JavaScript `Math.round`: rounds half away from zero toward positive
infinity, i.e. `⌊x + 1/2⌋`. -/
def jsRound {α : Type} [LinearOrderedField α] [FloorRing α] (x : α) : ℤ := ⌊x + 1/2⌋

/-- Source cashflow event type `CF` (src/app/page.tsx line 88): a pair of
time offset `t` and amount `cf`.  Every call site in the source uses a
natural-number time offset, so `t` is embedded as `ℕ`. -/
structure CF where
  t : ℕ
  cf : ℚ
deriving DecidableEq

/-- The NPV accumulator `f` of one Newton iteration in `irr`
(src/app/page.tsx lines 94-99): `Σ cf_i / (1+r)^(t_i)`. -/
def npv (cashflows : List CF) (r : ℚ) : ℚ :=
  (cashflows.map (fun x => x.cf / (1 + r) ^ x.t)).sum

/-- The derivative accumulator `df` of one Newton iteration in `irr`
(src/app/page.tsx line 99): `Σ (-t_i * cf_i) / ((1+r)^(t_i) * (1+r))`. -/
def dnpv (cashflows : List CF) (r : ℚ) : ℚ :=
  (cashflows.map (fun x => (-(x.t : ℚ) * x.cf) / ((1 + r) ^ x.t * (1 + r)))).sum

/-- JavaScript `isFinite` on the exact-rational embedding: every rational
models a finite double, so this is constantly `true`; kept so the
structure of `irr` (which tests `!isFinite(r)` and returns `NaN`)
carries over verbatim. -/
def isFiniteQ (_ : ℚ) : Bool := true

/-- The fuelled Newton-Raphson loop of `irr` (src/app/page.tsx lines
93-106).  One iteration: compute `f` and `df`; if `|f| < 1e-8` return
the current rate; otherwise step by `f / (df || 1e-12)`, return `NaN`
(`none`) if the new rate is non-finite, and clamp it to `[-0.95, 5]`
before the next iteration.  When fuel runs out the current rate is
returned (src line 107 `return r`). -/
def irrGo (cashflows : List CF) (r : ℚ) : ℕ → Option ℚ
  | 0 => some r
  | fuel + 1 =>
    if |npv cashflows r| < 1/100000000 then some r
    else
      let df := dnpv cashflows r
      let step := npv cashflows r / (if df = 0 then 1/1000000000000 else df)
      let r1 := r - step
      if isFiniteQ r1 then irrGo cashflows (clamp r1 (-19/20) 5) fuel else none

/-- Source `irr` (src/app/page.tsx lines 90-108): Newton-Raphson with a
60-iteration cap, default guess 0.20.  `none` models the `NaN` return. -/
def irr (cashflows : List CF) (guess : ℚ := 1/5) : Option ℚ :=
  irrGo cashflows guess 60

/-- Inputs of the `lboModel` memo (src/app/page.tsx lines 452-482,
624-701), numeric fields only (`company`/`currency` strings are
presentation data). -/
structure LboInput where
  holdYears : ℚ
  revenue0 : ℚ
  ebitdaMargin0 : ℚ
  entryMultiple : ℚ
  revCagr : ℚ
  marginTo : ℚ
  daPctRev : ℚ
  capexPctRev : ℚ
  nwcPctRev : ℚ
  taxRate : ℚ
  debtPctEV : ℚ
  debtRate : ℚ
  mandatoryAmortPct : ℚ
  exitMultiple : ℚ
  txnFeesPctEV : ℚ
deriving DecidableEq

/-- `N = clamp(Math.round(lbo.holdYears), 1, 10)` (src line 625). -/
def lboN (a : LboInput) : ℕ := (clamp (jsRound a.holdYears) 1 10).toNat

/-- `revs[t-1] = revenue0 * (1 + revCagr)^t` (src line 628); stated as a
function of the 1-based year `t`. -/
def lboRev (a : LboInput) (t : ℕ) : ℚ := a.revenue0 * (1 + a.revCagr) ^ t

/-- Linearly interpolated EBITDA margin (src lines 629-632): weight
`t/N`, collapsing to 1 when `N = 1`. -/
def lboMargin (a : LboInput) (t : ℕ) : ℚ :=
  a.ebitdaMargin0 +
    (a.marginTo - a.ebitdaMargin0) * (if lboN a = 1 then 1 else (t : ℚ) / (lboN a))

/-- `ebitda[t-1] = revs[t-1] * margin[t-1]` (src line 633). -/
def lboEbitda (a : LboInput) (t : ℕ) : ℚ := lboRev a t * lboMargin a t

/-- `entryEBITDA = revenue0 * ebitdaMargin0` (src line 635). -/
def entryEBITDA (a : LboInput) : ℚ := a.revenue0 * a.ebitdaMargin0

/-- `entryEV = entryEBITDA * entryMultiple` (src line 636). -/
def entryEV (a : LboInput) : ℚ := entryEBITDA a * a.entryMultiple

/-- `fees = entryEV * txnFeesPctEV` (src line 637). -/
def lboFees (a : LboInput) : ℚ := entryEV a * a.txnFeesPctEV

/-- `debt0 = entryEV * clamp(debtPctEV, 0, 0.95)` (src line 639). -/
def lboDebt0 (a : LboInput) : ℚ := entryEV a * clamp a.debtPctEV 0 (19/20)

/-- `equity0 = entryEV + fees - debt0` (src line 640). -/
def lboEquity0 (a : LboInput) : ℚ := entryEV a + lboFees a - lboDebt0 a

/-- The rolling NWC level `nwc[t] = rev_t * nwcPctRev` with
`nwc[0] = revenue0 * nwcPctRev` (src line 643); since
`lboRev a 0 = revenue0`, one formula covers every index. -/
def lboNwc (a : LboInput) (t : ℕ) : ℚ := lboRev a t * a.nwcPctRev

/-- `dNwc = nwc[i+1] - nwc[i]` at year `t = i+1` (src line 651). -/
def lboDNwc (a : LboInput) (t : ℕ) : ℚ := lboNwc a t - lboNwc a (t - 1)

/-- `tax = Math.max(0, ebit) * taxRate` with `ebit = ebitda - da`
(src lines 646-648). -/
def lboTax (a : LboInput) (t : ℕ) : ℚ :=
  max 0 (lboEbitda a t - lboRev a t * a.daPctRev) * a.taxRate

/-- `capex = revs[i] * capexPctRev` (src line 650). -/
def lboCapex (a : LboInput) (t : ℕ) : ℚ := lboRev a t * a.capexPctRev

/-- `interest = debt * debtRate` on the beginning balance `d`
(src line 653). -/
def lboInterest (a : LboInput) (d : ℚ) : ℚ := d * a.debtRate

/-- `mandatory = debt * clamp(mandatoryAmortPct, 0, 0.5)` (src line 654). -/
def lboMandatory (a : LboInput) (d : ℚ) : ℚ := d * clamp a.mandatoryAmortPct 0 (1/2)

/-- `cashAfter = ebitda - tax - capex - dNwc - interest` (src line 657). -/
def lboCashAfter (a : LboInput) (t : ℕ) (d : ℚ) : ℚ :=
  lboEbitda a t - lboTax a t - lboCapex a t - lboDNwc a t - lboInterest a d

/-- `sweep = Math.max(0, cashAfter - mandatory)` (src line 658). -/
def lboSweep (a : LboInput) (t : ℕ) (d : ℚ) : ℚ :=
  max 0 (lboCashAfter a t d - lboMandatory a d)

/-- `totalPaydown = clamp(mandatory + sweep, 0, debt)` (src line 660). -/
def lboPaydown (a : LboInput) (t : ℕ) (d : ℚ) : ℚ :=
  clamp (lboMandatory a d + lboSweep a t d) 0 d

/-- The debt-sweep recurrence (src lines 642-673): `endDebtAfter a t` is
the running `debt` variable after `t` years, starting at `debt0` and
subtracting each year's `totalPaydown`. -/
def endDebtAfter (a : LboInput) : ℕ → ℚ
  | 0 => lboDebt0 a
  | t + 1 => endDebtAfter a t - lboPaydown a (t + 1) (endDebtAfter a t)

/-- One row of the LBO schedule (src lines 665-672). -/
structure LboRow where
  year : ℕ
  revenue : ℚ
  ebitdaV : ℚ
  interest : ℚ
  paydown : ℚ
  endDebt : ℚ
deriving DecidableEq

/-- The per-year schedule `rows` (src lines 645-673), expressed with the
explicit recurrence in place of the mutable `debt` variable. -/
def lboRows (a : LboInput) : List LboRow :=
  (List.range (lboN a)).map (fun i =>
    { year := i + 1
      revenue := lboRev a (i + 1)
      ebitdaV := lboEbitda a (i + 1)
      interest := lboInterest a (endDebtAfter a i)
      paydown := lboPaydown a (i + 1) (endDebtAfter a i)
      endDebt := endDebtAfter a (i + 1) })

/-- `exitEBITDA * exitMultiple` (src lines 675-676). -/
def lboExitEV (a : LboInput) : ℚ := lboEbitda a (lboN a) * a.exitMultiple

/-- `exitEquity = exitEV - exitDebt` (src lines 677-678). -/
def lboExitEquity (a : LboInput) : ℚ := lboExitEV a - endDebtAfter a (lboN a)

/-- The equity IRR call (src lines 680-681): the two-event schedule
`[(0, -equity0), (N, exitEquity)]` with guess 0.25. -/
def lboIrrEq (a : LboInput) : Option ℚ :=
  irr [⟨0, -lboEquity0 a⟩, ⟨lboN a, lboExitEquity a⟩] (1/4)

/-- Claim C4, counterexample input: a one-year LBO with
`mandatoryAmortPct = 0`, `debtRate = 0` and nonnegative cash available,
but a negative base revenue, hence negative entry EV and negative entry
debt, so the paydown clamp `clamp(·, 0, debt)` pins the paydown to 0. -/
def exA : LboInput :=
  { holdYears := 1, revenue0 := -100, ebitdaMargin0 := 1/5,
    entryMultiple := 10, revCagr := 0, marginTo := 1/5, daPctRev := 0,
    capexPctRev := 3/10, nwcPctRev := 0, taxRate := 1/4, debtPctEV := 1/2,
    debtRate := 0, mandatoryAmortPct := 0, exitMultiple := 10, txnFeesPctEV := 0 }

/-- Claim C4, witness input: a sane two-year LBO with zero mandatory
amortization and zero debt rate whose yearly sweeps stay below the
running debt balance. -/
def exB : LboInput :=
  { holdYears := 2, revenue0 := 100, ebitdaMargin0 := 1/2,
    entryMultiple := 2, revCagr := 0, marginTo := 1/2, daPctRev := 0,
    capexPctRev := 9/20, nwcPctRev := 0, taxRate := 0, debtPctEV := 1/2,
    debtRate := 0, mandatoryAmortPct := 0, exitMultiple := 1, txnFeesPctEV := 0 }

/-! ### DCF engine (src/app/page.tsx lines 504-618 `dcfModel`,
duplicated in src/unnamed/part_001 lines 36-100 `computeDcf`; the two
copies compute identical numeric fields, so one embedding serves both;
the sensitivity grid exists only in the page copy). -/

/-- The two terminal-value methods (`"gordon" | "exit"`). -/
inductive TerminalMethod where
  | gordon
  | exit
deriving DecidableEq

/-- The DCF assumption record (src/app/page.tsx lines 407-446 and the
`DcfInput` type of src/unnamed/part_001 lines 8-34); numeric fields
only (`company`/`currency` strings are presentation data). -/
structure DcfInput where
  years : ℝ
  revenue0 : ℝ
  ebitdaMargin0 : ℝ
  ebitdaMarginT : ℝ
  revGrowth : ℝ
  daPctRev : ℝ
  capexPctRev : ℝ
  nwcPctRev : ℝ
  taxRate : ℝ
  rf : ℝ
  beta : ℝ
  mrp : ℝ
  preTaxKd : ℝ
  targetDebtPct : ℝ
  terminalMethod : TerminalMethod
  tg : ℝ
  exitMultiple : ℝ
  netDebt : ℝ
  shares : ℝ
  midYear : Bool

/-- `N = clamp(Math.round(years), 1, 15)` (src line 505 / part_001
line 37); always at least 1. -/
noncomputable def dcfN (i : DcfInput) : ℕ := (clamp (jsRound i.years) 1 15).toNat

/-- `revs[t-1] = revenue0 * (1 + revGrowth)^t` (src line 508). -/
def dcfRev (i : DcfInput) (t : ℕ) : ℝ := i.revenue0 * (1 + i.revGrowth) ^ t

/-- Linearly interpolated EBITDA margin with weight `t/N`, collapsing to
1 when `N = 1` (src lines 510-513). -/
noncomputable def dcfMargin (i : DcfInput) (t : ℕ) : ℝ :=
  i.ebitdaMargin0 +
    (i.ebitdaMarginT - i.ebitdaMargin0) * (if dcfN i = 1 then 1 else (t : ℝ) / (dcfN i))

/-- `ebitda = revs * margin` (src line 515). -/
noncomputable def dcfEbitda (i : DcfInput) (t : ℕ) : ℝ := dcfRev i t * dcfMargin i t

/-- `da = revs * daPctRev` (src line 516). -/
def dcfDa (i : DcfInput) (t : ℕ) : ℝ := dcfRev i t * i.daPctRev

/-- `ebit = ebitda - da` (src line 517). -/
noncomputable def dcfEbit (i : DcfInput) (t : ℕ) : ℝ := dcfEbitda i t - dcfDa i t

/-- `tax = Math.max(0, ebit) * taxRate` (src line 520): losses are never
tax-credited. -/
noncomputable def dcfTax (i : DcfInput) (t : ℕ) : ℝ := max 0 (dcfEbit i t) * i.taxRate

/-- `nopat = ebit - tax` (src line 521). -/
noncomputable def dcfNopat (i : DcfInput) (t : ℕ) : ℝ := dcfEbit i t - dcfTax i t

/-- The rolling NWC level `nwc[t] = rev_t * nwcPctRev` (src line 523);
`lboRev`-style, index 0 is the base level from year-0 revenue. -/
def dcfNwc (i : DcfInput) (t : ℕ) : ℝ := dcfRev i t * i.nwcPctRev

/-- `dNwc = nwc[t] - nwc[t-1]` (src line 524). -/
def dcfDNwc (i : DcfInput) (t : ℕ) : ℝ := dcfNwc i t - dcfNwc i (t - 1)

/-- `capex = revs * capexPctRev` (src line 526). -/
def dcfCapex (i : DcfInput) (t : ℕ) : ℝ := dcfRev i t * i.capexPctRev

/-- `ufcf = nopat + da - capex - dNwc` (src line 527). -/
noncomputable def dcfUfcf (i : DcfInput) (t : ℕ) : ℝ :=
  dcfNopat i t + dcfDa i t - dcfCapex i t - dcfDNwc i t

/-- `ke = rf + beta * mrp` (src line 530). -/
def dcfKe (i : DcfInput) : ℝ := i.rf + i.beta * i.mrp

/-- `kd = preTaxKd * (1 - taxRate)` (src line 531). -/
def dcfKd (i : DcfInput) : ℝ := i.preTaxKd * (1 - i.taxRate)

/-- `wd = clamp(targetDebtPct, 0, 0.95)` (src line 532). -/
noncomputable def dcfWd (i : DcfInput) : ℝ := clamp i.targetDebtPct 0 0.95

/-- `we = 1 - wd` (src line 533). -/
noncomputable def dcfWe (i : DcfInput) : ℝ := 1 - dcfWd i

/-- `wacc = we * ke + wd * kd` (src line 534). -/
noncomputable def dcfWacc (i : DcfInput) : ℝ := dcfWe i * dcfKe i + dcfWd i * dcfKd i

/-- Terminal value (src lines 540-547): EBITDA multiple under `exit`;
under `gordon`, `NaN` (`none`) when `wacc - g ≤ 0`, else the perpetuity
`lastUfcf * (1+g) / (wacc-g)`.  `N ≥ 1`, so the source's `?? 0`
fallbacks for the last array entries are dead and last entries are the
year-`N` values. -/
noncomputable def dcfTv (i : DcfInput) : Option ℝ :=
  if i.terminalMethod = TerminalMethod.exit then
    some (dcfEbitda i (dcfN i) * i.exitMultiple)
  else if dcfWacc i - i.tg ≤ 0 then none
  else some (dcfUfcf i (dcfN i) * (1 + i.tg) / (dcfWacc i - i.tg))

/-- Discount factor `1 / (1+wacc)^(t - 0.5 or t)` (src lines 549-552);
the exponent is a real number, so the power is `Real.rpow`. -/
noncomputable def dcfDf (i : DcfInput) (t : ℕ) : ℝ :=
  1 / (1 + dcfWacc i) ^ (if i.midYear then (t : ℝ) - 0.5 else (t : ℝ))

/-- `Σ pvUfcf` (src lines 554, 557). -/
noncomputable def dcfPvSum (i : DcfInput) : ℝ :=
  ((List.range (dcfN i)).map (fun k => dcfUfcf i (k+1) * dcfDf i (k+1))).sum

/-- `pvTv = tv * discountFactor[N]` (src line 555); `NaN` propagates. -/
noncomputable def dcfPvTv (i : DcfInput) : Option ℝ :=
  (dcfTv i).map (fun tv => tv * dcfDf i (dcfN i))

/-- `enterpriseValue = Σ pvUfcf + pvTv` (src line 557). -/
noncomputable def dcfEV (i : DcfInput) : Option ℝ :=
  (dcfPvTv i).map (fun x => dcfPvSum i + x)

/-- `equityValue = enterpriseValue - netDebt` (src line 558). -/
noncomputable def dcfEquity (i : DcfInput) : Option ℝ :=
  (dcfEV i).map (fun ev => ev - i.netDebt)

/-- `pricePerShare = equityValue / (shares || NaN)` (src line 559):
`NaN` when `shares = 0`, and `NaN` propagates from the equity value. -/
noncomputable def dcfPx (i : DcfInput) : Option ℝ :=
  if i.shares = 0 then none else (dcfEquity i).map (fun e => e / i.shares)

/-- The result record of `computeDcf` (part_001 line 99); the per-year
table is reconstructible from the per-year functions above. -/
structure DcfOut where
  N : ℕ
  ke : ℝ
  kd : ℝ
  we : ℝ
  wd : ℝ
  wacc : ℝ
  tv : Option ℝ
  pvTv : Option ℝ
  enterpriseValue : Option ℝ
  equityValue : Option ℝ
  pricePerShare : Option ℝ

/-- `computeDcf` (part_001 lines 36-100): bundles the fields computed by
the per-step definitions above. -/
noncomputable def computeDcf (i : DcfInput) : DcfOut :=
  { N := dcfN i, ke := dcfKe i, kd := dcfKd i, we := dcfWe i, wd := dcfWd i,
    wacc := dcfWacc i, tv := dcfTv i, pvTv := dcfPvTv i,
    enterpriseValue := dcfEV i, equityValue := dcfEquity i,
    pricePerShare := dcfPx i }

/-- The WACC grid of the sensitivity table (src lines 562-564):
`[wacc ± 2%, ± 1%, wacc]` clamped to `[1%, 50%]`. -/
noncomputable def waccGrid (i : DcfInput) : List ℝ :=
  [dcfWacc i - 0.02, dcfWacc i - 0.01, dcfWacc i, dcfWacc i + 0.01,
    dcfWacc i + 0.02].map (fun x => clamp x 0.01 0.5)

/-- The growth grid (src line 565): `[tg ± 1%, tg]` clamped to `[0, 8%]`. -/
noncomputable def gGrid (i : DcfInput) : List ℝ :=
  [i.tg - 0.01, i.tg, i.tg + 0.01].map (fun x => clamp x 0 0.08)

/-- One sensitivity cell (src lines 567-576): always the Gordon formula,
reusing the base case's discounted UFCF; `NaN` (`none`) when
`w - g ≤ 0` or `shares = 0`. -/
noncomputable def sensCell (i : DcfInput) (g w : ℝ) : Option ℝ :=
  if w - g ≤ 0 then none
  else if i.shares = 0 then none
  else some ((dcfPvSum i + dcfUfcf i (dcfN i) * (1 + g) / (w - g) * dcfDf i (dcfN i)
      - i.netDebt) / i.shares)

/-- `sensWG` (src lines 567-577): rows indexed by growth, columns by
WACC. -/
noncomputable def sensWG (i : DcfInput) : List (List (Option ℝ)) :=
  (gGrid i).map (fun g => (waccGrid i).map (fun w => sensCell i g w))

/-- The base-case cell of the sensitivity grid: the middle row (index 1
of 3, the current growth) and middle column (index 2 of 5, the current
WACC). -/
noncomputable def sensBaseCell (i : DcfInput) : Option ℝ :=
  ((sensWG i).getD 1 []).getD 2 none

/-- `validate` (part_001 lines 102-110): the list of human-readable
input-domain errors collected before computation. -/
noncomputable def validate (i : DcfInput) : List String :=
  (if ¬(1 ≤ i.years ∧ i.years ≤ 15) then ["years must be 1–15"] else []) ++
  (if ¬(0 < i.revenue0) then ["revenue0 must be > 0"] else []) ++
  (if ¬(0 < i.shares) then ["shares must be > 0"] else []) ++
  (if ¬(0 ≤ i.taxRate ∧ i.taxRate ≤ 0.6) then ["taxRate must be 0–0.6"] else []) ++
  (if ¬(0 ≤ i.targetDebtPct ∧ i.targetDebtPct ≤ 0.95)
    then ["targetDebtPct must be 0–0.95"] else [])

/-- The two failure shapes of the `POST` handler (part_001 lines
112-130): a validation rejection with its message list, or the
terminal-value business rule `WACC ≤ g` under the Gordon method. -/
inductive DcfError where
  | validation (errs : List String)
  | terminal
deriving DecidableEq

/-- The `POST` handler (part_001 lines 112-130) on an already-parsed
body: validation errors reject before computation; then the Gordon
business rule `wacc ≤ tg` rejects; otherwise the computed result is
returned. -/
noncomputable def postDcf (i : DcfInput) : Except DcfError DcfOut :=
  if validate i ≠ [] then Except.error (DcfError.validation (validate i))
  else if i.terminalMethod = TerminalMethod.gordon ∧ (computeDcf i).wacc ≤ i.tg then
    Except.error DcfError.terminal
  else Except.ok (computeDcf i)

/-- The end-to-end example input of the spec (section 8). -/
noncomputable def exDcf : DcfInput :=
  { years := 5, revenue0 := 1000, ebitdaMargin0 := 0.22, ebitdaMarginT := 0.24,
    revGrowth := 0.10, daPctRev := 0.03, capexPctRev := 0.04, nwcPctRev := 0.10,
    taxRate := 0.25, rf := 0.04, beta := 1.2, mrp := 0.05, preTaxKd := 0.065,
    targetDebtPct := 0.30, terminalMethod := TerminalMethod.gordon, tg := 0.03,
    exitMultiple := 10, netDebt := 300, shares := 100, midYear := true }

/-- Claim C5, counterexample input: exit-multiple terminal method with a
WACC of 0 and a terminal growth of 8%; the base price per share is a
finite number from the exit multiple, but the grid's center cell uses
the Gordon formula at the clamped column `w = 1%` against `g = 8%`, so
`w - g ≤ 0` and the cell is `NaN`. -/
noncomputable def exE : DcfInput :=
  { years := 1, revenue0 := 1, ebitdaMargin0 := 0, ebitdaMarginT := 0,
    revGrowth := 0, daPctRev := 0, capexPctRev := 0, nwcPctRev := 0,
    taxRate := 0, rf := 0, beta := 0, mrp := 0, preTaxKd := 0,
    targetDebtPct := 0, terminalMethod := TerminalMethod.exit, tg := 0.08,
    exitMultiple := 5, netDebt := -10, shares := 1, midYear := true }

/-! ### Monte Carlo simulator (src/app/page.tsx lines 119-164
`logNormalMonteCarlo`).  The non-seeded `Math.random()` is modelled as
an arbitrary stream `draw : ℕ → ℝ` of uniform(0,1) values, consumed two
per step in loop order (path `k`, step `i` uses draws `2*(k*steps+i)`
and `2*(k*steps+i)+1`). -/

/-- JavaScript `x || d` on numbers for the `u1` guard (src line 140):
`d` when `x` is zero (the only falsy uniform draw in the exact model). -/
noncomputable def jsOrR (x d : ℝ) : ℝ := if x = 0 then d else x

/-- The Box-Muller variate `sqrt(-2 ln u1) * cos(2π u2)` (src lines
142-143). -/
noncomputable def boxMuller (u1 u2 : ℝ) : ℝ :=
  Real.sqrt (-2 * Real.log u1) * Real.cos (2 * Real.pi * u2)

/-- One GBM step `s * exp((mu - sigma²/2) dt + sigma sqrt(dt) z)`
(src lines 144-149). -/
noncomputable def mcStep (mu sigma dt s z : ℝ) : ℝ :=
  s * Real.exp ((mu - 0.5 * sigma * sigma) * dt + sigma * Real.sqrt dt * z)

/-- One simulated path's terminal value (src lines 137-151): fold the
GBM step over `steps` sub-intervals of length `dt = years/steps`,
starting from `s0`. -/
noncomputable def mcPath (s0 mu sigma years : ℝ) (steps : ℕ) (draw : ℕ → ℝ)
    (k : ℕ) : ℝ :=
  (List.range steps).foldl (fun s i =>
    mcStep mu sigma (years / steps) s
      (boxMuller (jsOrR (draw (2 * (k * steps + i))) 1e-12)
        (draw (2 * (k * steps + i) + 1)))) s0

/-- The `paths` array before sorting (src lines 135-152). -/
noncomputable def mcPaths (s0 mu sigma years : ℝ) (steps n : ℕ)
    (draw : ℕ → ℝ) : List ℝ :=
  (List.range n).map (mcPath s0 mu sigma years steps draw)

/-- `paths.sort((a, b) => a - b)` (src line 154): a stable ascending
sort, embedded as insertion sort. -/
noncomputable def mcSorted (s0 mu sigma years : ℝ) (steps n : ℕ)
    (draw : ℕ → ℝ) : List ℝ :=
  List.insertionSort (· ≤ ·) (mcPaths s0 mu sigma years steps n draw)

/-- The empirical quantile `sorted[floor(clamp(p, 0, 0.9999) * length)]`
(src lines 155-156). -/
noncomputable def mcQ (sorted : List ℝ) (p : ℝ) : ℝ :=
  sorted.getD (⌊clamp p 0 0.9999 * (sorted.length : ℝ)⌋).toNat 0

/-- The arithmetic mean `reduce(+) / length` (src line 159). -/
noncomputable def mcMean (l : List ℝ) : ℝ := l.sum / l.length

/-- The summary record returned by `logNormalMonteCarlo`
(src lines 158-163). -/
structure MCOut where
  mean : ℝ
  p05 : ℝ
  p50 : ℝ
  p95 : ℝ

/-- `logNormalMonteCarlo` (src lines 119-164). -/
noncomputable def logNormalMonteCarlo (s0 mu sigma years : ℝ) (steps n : ℕ)
    (draw : ℕ → ℝ) : MCOut :=
  { mean := mcMean (mcSorted s0 mu sigma years steps n draw)
    p05 := mcQ (mcSorted s0 mu sigma years steps n draw) 0.05
    p50 := mcQ (mcSorted s0 mu sigma years steps n draw) 0.5
    p95 := mcQ (mcSorted s0 mu sigma years steps n draw) 0.95 }

/-! ### Helper lemmas: clamp, rounding and the IRR loop -/

theorem clamp_lower {α : Type} [LinearOrder α] (x a b : α) : a ≤ clamp x a b :=
  le_max_left _ _

theorem clamp_upper {α : Type} [LinearOrder α] (x a b : α) (h : a ≤ b) : clamp x a b ≤ b :=
  max_le h (min_le_left _ _)

theorem clamp_eq_self {α : Type} [LinearOrder α] {x a b : α} (h1 : a ≤ x) (h2 : x ≤ b) :
    clamp x a b = x := by
  unfold clamp
  rw [min_eq_right h2, max_eq_right h1]

theorem jsRound_eq {α : Type} [LinearOrderedField α] [FloorRing α] (x : α) (n : ℤ)
    (h1 : (n : α) ≤ x + 1/2) (h2 : x + 1/2 < n + 1) : jsRound x = n := by
  rw [jsRound, Int.floor_eq_iff.mpr ⟨h1, by exact_mod_cast h2⟩]

theorem endDebtAfter_zero (a : LboInput) : endDebtAfter a 0 = lboDebt0 a := rfl

theorem endDebtAfter_succ (a : LboInput) (t : ℕ) :
    endDebtAfter a (t + 1) = endDebtAfter a t - lboPaydown a (t + 1) (endDebtAfter a t) := rfl

/-- Unfolding one non-converged iteration of the Newton loop. -/
theorem irrGo_step_ne (cashflows : List CF) (r : ℚ) (fuel : ℕ) (hf : fuel ≠ 0)
    (h : ¬ |npv cashflows r| < 1/100000000) :
    irrGo cashflows r fuel =
      irrGo cashflows
        (clamp (r - npv cashflows r /
          (if dnpv cashflows r = 0 then 1/1000000000000 else dnpv cashflows r))
          (-19/20) 5) (fuel - 1) := by
  obtain ⟨m, rfl⟩ := Nat.exists_eq_succ_of_ne_zero hf
  simp only [irrGo, if_neg h, isFiniteQ, if_true, Nat.succ_sub_one]

/-- Unfolding a converged iteration of the Newton loop. -/
theorem irrGo_done (cashflows : List CF) (r : ℚ) (fuel : ℕ) (hf : fuel ≠ 0)
    (h : |npv cashflows r| < 1/100000000) : irrGo cashflows r fuel = some r := by
  obtain ⟨m, rfl⟩ := Nat.exists_eq_succ_of_ne_zero hf
  simp only [irrGo, if_pos h]

/-- A non-converged fixed point of the Newton update is returned
unchanged once the fuel runs out. -/
theorem irrGo_fixed (cashflows : List CF) (r : ℚ)
    (htol : ¬ |npv cashflows r| < 1/100000000)
    (hfix : clamp (r - npv cashflows r /
        (if dnpv cashflows r = 0 then 1/1000000000000 else dnpv cashflows r))
        (-19/20) 5 = r) :
    ∀ fuel, irrGo cashflows r fuel = some r := by
  intro fuel
  induction fuel with
  | zero => rfl
  | succ n ih =>
    rw [irrGo_step_ne cashflows r (n + 1) (Nat.succ_ne_zero n) htol, hfix,
      Nat.succ_sub_one]
    exact ih

/-- Invariant of the Newton loop: started from a rate inside the clamp
interval `[-0.95, 5]`, `irrGo` always returns `some` rate inside that
interval (the `isFinite` guard never fires in exact arithmetic, and each
update is clamped back into the interval). -/
theorem irrGo_some_range (cashflows : List CF) :
    ∀ (fuel : ℕ) (r : ℚ), -19/20 ≤ r → r ≤ 5 →
      ∃ r1, irrGo cashflows r fuel = some r1 ∧ -19/20 ≤ r1 ∧ r1 ≤ 5 := by
  intro fuel
  induction fuel with
  | zero => exact fun r h1 h2 => ⟨r, rfl, h1, h2⟩
  | succ n ih =>
    intro r h1 h2
    unfold irrGo
    split
    · exact ⟨r, rfl, h1, h2⟩
    · simpa [isFiniteQ] using
        ih _ (clamp_lower _ _ _) (clamp_upper _ _ _ (by norm_num))

/-- One term of the NPV sum, scaled by a sign `s`, is at least the
tolerance whenever the scaled amount dominates `1e-8 * 6^t` and the rate
lies in the clamp interval (so that `0 < 1+r ≤ 6`). -/
theorem npv_term_ge (s cf : ℚ) (t : ℕ) (r : ℚ)
    (hx : 1/100000000 * 6 ^ t ≤ s * cf) (hr1 : -19/20 ≤ r) (hr2 : r ≤ 5) :
    1/100000000 ≤ s * (cf / (1 + r) ^ t) := by
  have hb0 : (0:ℚ) < 1 + r := by linarith
  have hb6 : (1:ℚ) + r ≤ 6 := by linarith
  have hp0 : (0:ℚ) < (1 + r) ^ t := pow_pos hb0 t
  have hp6 : (1 + r) ^ t ≤ 6 ^ t := pow_le_pow_left₀ (le_of_lt hb0) hb6 t
  have h60 : (0:ℚ) < 6 ^ t := pow_pos (by norm_num) t
  have hcf : (0:ℚ) < s * cf := lt_of_lt_of_le (by positivity) hx
  rw [← mul_div_assoc]
  have hd1 : (s * cf) / 6 ^ t ≤ (s * cf) / (1 + r) ^ t :=
    div_le_div_of_nonneg_left hcf.le hp0 hp6
  have hd2 : 1/100000000 ≤ (s * cf) / 6 ^ t := (le_div_iff₀ h60).mpr hx
  linarith

theorem snpv_nonneg (cashflows : List CF) (s r : ℚ)
    (hb : ∀ x ∈ cashflows, 1/100000000 * 6 ^ x.t ≤ s * x.cf)
    (hr1 : -19/20 ≤ r) (hr2 : r ≤ 5) :
    0 ≤ s * npv cashflows r := by
  induction cashflows with
  | nil => simp [npv]
  | cons y ys ih =>
    have hy := npv_term_ge s y.cf y.t r (hb y (by simp)) hr1 hr2
    have hys := ih (fun x hx => hb x (by simp [hx]))
    have hcons : npv (y :: ys) r = y.cf / (1 + r) ^ y.t + npv ys r := by
      simp [npv]
    rw [hcons, mul_add]
    linarith

/-- On a nonempty schedule whose amounts all dominate the thresholds with
a common sign `s`, the NPV misses the convergence tolerance at every
rate in the clamp interval. -/
theorem abs_npv_ge (cashflows : List CF) (r s : ℚ) (hs : s = 1 ∨ s = -1)
    (hne : cashflows ≠ [])
    (hb : ∀ x ∈ cashflows, 1/100000000 * 6 ^ x.t ≤ s * x.cf)
    (hr1 : -19/20 ≤ r) (hr2 : r ≤ 5) :
    1/100000000 ≤ |npv cashflows r| := by
  obtain ⟨y, ys, rfl⟩ := List.exists_cons_of_ne_nil hne
  have hy := npv_term_ge s y.cf y.t r (hb y (by simp)) hr1 hr2
  have hys := snpv_nonneg ys s r (fun x hx => hb x (by simp [hx])) hr1 hr2
  have hcons : npv (y :: ys) r = y.cf / (1 + r) ^ y.t + npv ys r := by
    simp [npv]
  have htot : 1/100000000 ≤ s * npv (y :: ys) r := by
    rw [hcons, mul_add]; linarith
  have habs : s * npv (y :: ys) r ≤ |npv (y :: ys) r| := by
    rcases hs with h | h <;> subst h
    · simpa using le_abs_self (npv (y :: ys) r)
    · simpa [neg_one_mul] using neg_le_abs (npv (y :: ys) r)
  linarith

/-! ### Claims C1, C7, C8 (IRR solver) -/

/-- Claim C1, counterexample: on the all-positive schedule `[(0, 100)]`
with the default guess 0.20, the solver never meets the tolerance, yet
after the 60-iteration cap it returns the finite clamped rate `-0.95`
(the source's `return r` after the loop), not the non-finite `NaN` the
claim requires. -/
theorem irr_all_positive_counterexample :
    irr [⟨0, 100⟩] (1/5) = some (-19/20) := by
  unfold irr
  rw [irrGo_step_ne _ _ _ (by norm_num) (by norm_num [npv, abs_lt])]
  rw [show clamp ((1:ℚ)/5 - npv [⟨0, 100⟩] (1/5) /
      (if dnpv [⟨0, 100⟩] (1/5) = 0 then 1/1000000000000
       else dnpv [⟨0, 100⟩] (1/5))) (-19/20) 5 = -19/20 by
    norm_num [npv, dnpv, clamp, max_def, min_def]]
  exact irrGo_fixed [⟨0, 100⟩] (-19/20) (by norm_num [npv, abs_lt])
    (by norm_num [npv, dnpv, clamp, max_def, min_def]) 59

/-- Claim C1 (amended): on a nonempty schedule whose amounts all have
the same sign `s` and dominate `1e-8 * 6^t` in magnitude, with a guess
inside the clamp interval, `solveIrr` never meets the `|NPV| < 1e-8`
tolerance; it returns a finite rate in `[-0.95, 5]` whose NPV still
misses the tolerance, rather than the non-finite `NaN` the claim
states. -/
theorem irr_same_sign_no_convergence (cashflows : List CF) (guess s : ℚ)
    (hs : s = 1 ∨ s = -1) (hne : cashflows ≠ [])
    (hb : ∀ x ∈ cashflows, 1/100000000 * 6 ^ x.t ≤ s * x.cf)
    (h1 : -19/20 ≤ guess) (h2 : guess ≤ 5) :
    ∃ r, irr cashflows guess = some r ∧ -19/20 ≤ r ∧ r ≤ 5 ∧
      1/100000000 ≤ |npv cashflows r| := by
  obtain ⟨r1, he, ha, hbnd⟩ := irrGo_some_range cashflows 60 guess h1 h2
  exact ⟨r1, he, ha, hbnd, abs_npv_ge cashflows r1 s hs hne hb ha hbnd⟩

theorem irr_same_sign_witness :
    ([⟨0, 200⟩] : List CF) ≠ [] ∧
    (∃ r, irr [⟨0, 200⟩] 0 = some r ∧ -19/20 ≤ r ∧ r ≤ 5 ∧
      1/100000000 ≤ |npv [⟨0, 200⟩] r|) :=
  ⟨by simp,
    irr_same_sign_no_convergence [⟨0, 200⟩] 0 1 (Or.inl rfl) (by simp)
      (by intro x hx; simp only [List.mem_singleton] at hx; subst hx; norm_num)
      (by norm_num) (by norm_num)⟩

/-- Claim C7: on the schedule `[(0, -100), (1, 110)]` with the default
guess 0.20, the solver returns a rate within `1e-6` of `0.10` (the exact
Newton iterates are `1/5, 1/11, 133/1331, 1948717/19487171,
417724816941565/4177248169415651`, at which point `|NPV| < 1e-8`). -/
theorem irr_example_schedule :
    ∃ r, irr [⟨0, -100⟩, ⟨1, 110⟩] (1/5) = some r ∧ |r - 1/10| < 1/1000000 := by
  refine ⟨417724816941565/4177248169415651, ?_, by rw [abs_lt]; constructor <;> norm_num⟩
  unfold irr
  rw [irrGo_step_ne _ _ _ (by norm_num) (by norm_num [npv, abs_lt])]
  rw [show clamp ((1:ℚ)/5 - npv [⟨0, -100⟩, ⟨1, 110⟩] (1/5) /
      (if dnpv [⟨0, -100⟩, ⟨1, 110⟩] (1/5) = 0 then 1/1000000000000
       else dnpv [⟨0, -100⟩, ⟨1, 110⟩] (1/5))) (-19/20) 5 = 1/11 by
    norm_num [npv, dnpv, clamp, max_def, min_def]]
  rw [irrGo_step_ne _ _ _ (by norm_num) (by norm_num [npv, abs_lt])]
  rw [show clamp ((1:ℚ)/11 - npv [⟨0, -100⟩, ⟨1, 110⟩] (1/11) /
      (if dnpv [⟨0, -100⟩, ⟨1, 110⟩] (1/11) = 0 then 1/1000000000000
       else dnpv [⟨0, -100⟩, ⟨1, 110⟩] (1/11))) (-19/20) 5 = 133/1331 by
    norm_num [npv, dnpv, clamp, max_def, min_def]]
  rw [irrGo_step_ne _ _ _ (by norm_num) (by norm_num [npv, abs_lt])]
  rw [show clamp ((133:ℚ)/1331 - npv [⟨0, -100⟩, ⟨1, 110⟩] (133/1331) /
      (if dnpv [⟨0, -100⟩, ⟨1, 110⟩] (133/1331) = 0 then 1/1000000000000
       else dnpv [⟨0, -100⟩, ⟨1, 110⟩] (133/1331))) (-19/20) 5 = 1948717/19487171 by
    norm_num [npv, dnpv, clamp, max_def, min_def]]
  rw [irrGo_step_ne _ _ _ (by norm_num) (by norm_num [npv, abs_lt])]
  rw [show clamp ((1948717:ℚ)/19487171 - npv [⟨0, -100⟩, ⟨1, 110⟩] (1948717/19487171) /
      (if dnpv [⟨0, -100⟩, ⟨1, 110⟩] (1948717/19487171) = 0 then 1/1000000000000
       else dnpv [⟨0, -100⟩, ⟨1, 110⟩] (1948717/19487171))) (-19/20) 5 =
      417724816941565/4177248169415651 by
    norm_num [npv, dnpv, clamp, max_def, min_def]]
  exact irrGo_done _ _ _ (by norm_num) (by rw [abs_lt]; constructor <;> norm_num [npv])

/-- Claim C8: if the initial guess lies in `[-0.95, 5]`, every finite
rate returned by `solveIrr` also lies in `[-0.95, 5]`: each Newton
update is clamped to that interval before the next convergence test, and
the guess itself is only returned when already in range. -/
theorem irr_range_of_guess_range (cashflows : List CF) (guess r : ℚ)
    (h1 : -19/20 ≤ guess) (h2 : guess ≤ 5) (h : irr cashflows guess = some r) :
    -19/20 ≤ r ∧ r ≤ 5 := by
  obtain ⟨r1, he, ha, hbnd⟩ := irrGo_some_range cashflows 60 guess h1 h2
  unfold irr at h
  rw [he] at h
  cases h
  exact ⟨ha, hbnd⟩

theorem irr_range_witness :
    irr [⟨0, -100⟩] (1/5) = some 5 ∧ -19/20 ≤ (5:ℚ) ∧ (5:ℚ) ≤ 5 := by
  have he : irr [⟨0, -100⟩] (1/5) = some 5 := by
    unfold irr
    rw [irrGo_step_ne _ _ _ (by norm_num) (by norm_num [npv, abs_lt])]
    rw [show clamp ((1:ℚ)/5 - npv [⟨0, -100⟩] (1/5) /
        (if dnpv [⟨0, -100⟩] (1/5) = 0 then 1/1000000000000
         else dnpv [⟨0, -100⟩] (1/5))) (-19/20) 5 = 5 by
      norm_num [npv, dnpv, clamp, max_def, min_def]]
    exact irrGo_fixed [⟨0, -100⟩] 5 (by norm_num [npv, abs_lt])
      (by norm_num [npv, dnpv, clamp, max_def, min_def]) 59
  exact ⟨he, irr_range_of_guess_range [⟨0, -100⟩] (1/5) 5 (by norm_num) (by norm_num) he⟩

/-! ### Claims C4, C9 (LBO debt sweep) -/

theorem exA_years : lboN exA = 1 := by
  rw [lboN, jsRound_eq exA.holdYears 1 (by norm_num [exA]) (by norm_num [exA]),
    clamp_eq_self (by norm_num) (by norm_num)]
  rfl

/-- Claim C4, counterexample: `exA` satisfies the claim's hypotheses
(zero mandatory amortization, zero debt rate, cash available `10 ≥ 0` in
its single year), yet the ending debt is `-100`, which differs from
`entryDebt - Σ sweep_t = -110` and is negative. -/
theorem lbo_sweep_counterexample :
    lboN exA = 1 ∧ exA.mandatoryAmortPct = 0 ∧ exA.debtRate = 0 ∧
    lboCashAfter exA 1 (endDebtAfter exA 0) = 10 ∧
    endDebtAfter exA 1 = -100 ∧
    lboDebt0 exA - lboSweep exA 1 (endDebtAfter exA 0) = -110 ∧
    endDebtAfter exA 1 < 0 := by
  have hN := exA_years
  have hca : lboCashAfter exA 1 (endDebtAfter exA 0) = 10 := by
    norm_num [lboCashAfter, lboEbitda, lboRev, lboMargin, hN, lboTax, lboCapex,
      lboDNwc, lboNwc, lboInterest, endDebtAfter_zero, lboDebt0, entryEV,
      entryEBITDA, clamp, max_def, min_def, exA]
  have hE1 : endDebtAfter exA 1 = -100 := by
    rw [show (1:ℕ) = 0 + 1 from rfl, endDebtAfter_succ, endDebtAfter_zero]
    norm_num [lboPaydown, lboMandatory, lboSweep, lboCashAfter, lboEbitda, lboRev,
      lboMargin, hN, lboTax, lboCapex, lboDNwc, lboNwc, lboInterest, lboDebt0,
      entryEV, entryEBITDA, clamp, max_def, min_def, exA]
  have hsum : lboDebt0 exA - lboSweep exA 1 (endDebtAfter exA 0) = -110 := by
    norm_num [lboSweep, lboMandatory, lboCashAfter, lboEbitda, lboRev,
      lboMargin, hN, lboTax, lboCapex, lboDNwc, lboNwc, lboInterest,
      endDebtAfter_zero, lboDebt0, entryEV, entryEBITDA, clamp, max_def,
      min_def, exA]
  exact ⟨hN, rfl, rfl, hca, hE1, hsum, by rw [hE1]; norm_num⟩

/-- Claim C4 (amended): with `mandatoryAmortPct = 0`, `debtRate = 0`, a
nonnegative entry debt, and each year's cash available for sweep both
nonnegative and no larger than that year's beginning debt (so the
paydown clamp never binds), the ending debt after `n` years equals
`entryDebt - Σ sweep_t` and is never negative. -/
theorem lbo_sweep_ending_debt (a : LboInput) (n : ℕ)
    (hm : a.mandatoryAmortPct = 0) (hr : a.debtRate = 0)
    (hd : 0 ≤ lboDebt0 a)
    (hc : ∀ i, i < n → 0 ≤ lboCashAfter a (i+1) (endDebtAfter a i))
    (hbd : ∀ i, i < n → lboCashAfter a (i+1) (endDebtAfter a i) ≤ endDebtAfter a i) :
    endDebtAfter a n =
      lboDebt0 a -
        ((List.range n).map (fun i => lboSweep a (i+1) (endDebtAfter a i))).sum ∧
    0 ≤ endDebtAfter a n := by
  induction n with
  | zero => exact ⟨by simp [endDebtAfter_zero], hd⟩
  | succ n ih =>
    obtain ⟨ihEq, ihPos⟩ :=
      ih (fun i h => hc i (h.trans (Nat.lt_succ_self n)))
        (fun i h => hbd i (h.trans (Nat.lt_succ_self n)))
    have hcash := hc n (Nat.lt_succ_self n)
    have hble := hbd n (Nat.lt_succ_self n)
    have hmand : lboMandatory a (endDebtAfter a n) = 0 := by
      rw [lboMandatory, hm]
      norm_num [clamp]
    have hsw : lboSweep a (n+1) (endDebtAfter a n) =
        lboCashAfter a (n+1) (endDebtAfter a n) := by
      rw [lboSweep, hmand, sub_zero]
      exact max_eq_right hcash
    have hpd : lboPaydown a (n+1) (endDebtAfter a n) =
        lboCashAfter a (n+1) (endDebtAfter a n) := by
      rw [lboPaydown, hmand, hsw, zero_add]
      exact clamp_eq_self hcash hble
    constructor
    · rw [endDebtAfter_succ, hpd, List.range_succ, List.map_append, List.sum_append]
      simp only [List.map_cons, List.map_nil, List.sum_cons, List.sum_nil, add_zero]
      rw [hsw]
      linarith [ihEq]
    · rw [endDebtAfter_succ, hpd]
      linarith

theorem exB_years : lboN exB = 2 := by
  rw [lboN, jsRound_eq exB.holdYears 2 (by norm_num [exB]) (by norm_num [exB]),
    clamp_eq_self (by norm_num) (by norm_num)]
  rfl

theorem lbo_sweep_witness :
    (lboN exB = 2 ∧ 0 ≤ lboDebt0 exB) ∧
    (endDebtAfter exB 2 =
      lboDebt0 exB -
        ((List.range 2).map (fun i => lboSweep exB (i+1) (endDebtAfter exB i))).sum ∧
    0 ≤ endDebtAfter exB 2) := by
  have hN := exB_years
  have hd : 0 ≤ lboDebt0 exB := by
    norm_num [lboDebt0, entryEV, entryEBITDA, clamp, max_def, min_def, exB]
  have hE1 : endDebtAfter exB 1 = 45 := by
    rw [show (1:ℕ) = 0 + 1 from rfl, endDebtAfter_succ, endDebtAfter_zero]
    norm_num [lboPaydown, lboMandatory, lboSweep, lboCashAfter, lboEbitda, lboRev,
      lboMargin, hN, lboTax, lboCapex, lboDNwc, lboNwc, lboInterest, lboDebt0,
      entryEV, entryEBITDA, clamp, max_def, min_def, exB]
  have hc : ∀ i, i < 2 → 0 ≤ lboCashAfter exB (i+1) (endDebtAfter exB i) := by
    intro i hi
    interval_cases i
    · norm_num [lboCashAfter, lboEbitda, lboRev, lboMargin, hN, lboTax, lboCapex,
        lboDNwc, lboNwc, lboInterest, endDebtAfter_zero, lboDebt0, entryEV,
        entryEBITDA, clamp, max_def, min_def, exB]
    · rw [hE1]
      norm_num [lboCashAfter, lboEbitda, lboRev, lboMargin, hN, lboTax, lboCapex,
        lboDNwc, lboNwc, lboInterest, exB]
  have hbd : ∀ i, i < 2 →
      lboCashAfter exB (i+1) (endDebtAfter exB i) ≤ endDebtAfter exB i := by
    intro i hi
    interval_cases i
    · norm_num [lboCashAfter, lboEbitda, lboRev, lboMargin, hN, lboTax, lboCapex,
        lboDNwc, lboNwc, lboInterest, endDebtAfter_zero, lboDebt0, entryEV,
        entryEBITDA, clamp, max_def, min_def, exB]
    · rw [hE1]
      norm_num [lboCashAfter, lboEbitda, lboRev, lboMargin, hN, lboTax, lboCapex,
        lboDNwc, lboNwc, lboInterest, exB]
  exact ⟨⟨hN, hd⟩, lbo_sweep_ending_debt exB 2 rfl rfl hd hc hbd⟩

/-- Claim C9: with no precondition on the inputs, each year's total
paydown is nonnegative (the paydown clamp's lower bound is 0), so the
LBO debt schedule `entryDebt = endDebtAfter 0 ≥ endDebtAfter 1 ≥ …` is
non-increasing in every year. -/
theorem lbo_debt_nonincreasing (a : LboInput) (t : ℕ) :
    0 ≤ lboPaydown a (t + 1) (endDebtAfter a t) ∧
    endDebtAfter a (t + 1) ≤ endDebtAfter a t := by
  have h : 0 ≤ lboPaydown a (t + 1) (endDebtAfter a t) := by
    rw [lboPaydown]
    exact clamp_lower _ _ _
  exact ⟨h, by rw [endDebtAfter_succ]; linarith⟩

/-! ### Claim C2 (DCF end-to-end example) -/
theorem exDcf_years : dcfN exDcf = 5 := by
  rw [dcfN, jsRound_eq exDcf.years 5 (by norm_num [exDcf]) (by norm_num [exDcf]),
    clamp_eq_self (by norm_num) (by norm_num)]
  rfl

theorem exDcf_wacc : dcfWacc exDcf = 677/8000 := by
  rw [dcfWacc, dcfWe, dcfWd, dcfKe, dcfKd,
    clamp_eq_self (by norm_num [exDcf]) (by norm_num [exDcf])]
  norm_num [exDcf]

theorem dcfDf_pos (i : DcfInput) (t : ℕ) (h : 0 < 1 + dcfWacc i) : 0 < dcfDf i t := by
  rw [dcfDf]
  exact div_pos one_pos (Real.rpow_pos_of_pos h _)

theorem exDcf_ufcf1 : dcfUfcf exDcf 1 = 2781/20 := by
  simp only [dcfUfcf, dcfNopat, dcfEbit, dcfEbitda, dcfMargin, dcfTax, dcfDa,
    dcfCapex, dcfDNwc, dcfNwc, dcfRev, exDcf_years]
  norm_num [exDcf, max_def]

theorem exDcf_ufcf2 : dcfUfcf exDcf 2 = 31317/200 := by
  simp only [dcfUfcf, dcfNopat, dcfEbit, dcfEbitda, dcfMargin, dcfTax, dcfDa,
    dcfCapex, dcfDNwc, dcfNwc, dcfRev, exDcf_years]
  norm_num [exDcf, max_def]

theorem exDcf_ufcf3 : dcfUfcf exDcf 3 = 352473/2000 := by
  simp only [dcfUfcf, dcfNopat, dcfEbit, dcfEbitda, dcfMargin, dcfTax, dcfDa,
    dcfCapex, dcfDNwc, dcfNwc, dcfRev, exDcf_years]
  norm_num [exDcf, max_def]

theorem exDcf_ufcf4 : dcfUfcf exDcf 4 = 3965049/20000 := by
  simp only [dcfUfcf, dcfNopat, dcfEbit, dcfEbitda, dcfMargin, dcfTax, dcfDa,
    dcfCapex, dcfDNwc, dcfNwc, dcfRev, exDcf_years]
  norm_num [exDcf, max_def]

theorem exDcf_ufcf5 : dcfUfcf exDcf 5 = 8916369/40000 := by
  simp only [dcfUfcf, dcfNopat, dcfEbit, dcfEbitda, dcfMargin, dcfTax, dcfDa,
    dcfCapex, dcfDNwc, dcfNwc, dcfRev, exDcf_years]
  norm_num [exDcf, max_def]

theorem exDcf_tv : dcfTv exDcf =
    some (dcfUfcf exDcf 5 * (1 + exDcf.tg) / (dcfWacc exDcf - exDcf.tg)) := by
  rw [dcfTv, exDcf_years]
  rw [if_neg (by rw [show exDcf.terminalMethod = TerminalMethod.gordon from rfl]; decide)]
  rw [if_neg (by rw [exDcf_wacc, show exDcf.tg = (0.03:ℝ) from rfl]; norm_num)]

/-- Claim C2, counterexample: on the spec's end-to-end example input the
code computes `WACC = 0.7*0.10 + 0.3*0.065*0.75 = 0.084625` exactly,
which is not within any reasonable reading of `≈ 0.0946` (it misses by
`0.009975 > 0.005`). -/
theorem dcf_wacc_counterexample :
    (computeDcf exDcf).wacc = 677/8000 ∧
    ¬ |(computeDcf exDcf).wacc - 0.0946| < 0.005 := by
  have hw : (computeDcf exDcf).wacc = 677/8000 := exDcf_wacc
  exact ⟨hw, by rw [hw, abs_lt]; norm_num⟩

/-- Claim C2 (amended): on the spec's end-to-end example input the DCF
engine yields `WACC = 0.084625` (not `≈ 0.0946`), a positive finite
enterprise value, and `WACC > tg`. -/
theorem dcf_example_values :
    (computeDcf exDcf).wacc = 677/8000 ∧ exDcf.tg < (computeDcf exDcf).wacc ∧
    ∃ ev, (computeDcf exDcf).enterpriseValue = some ev ∧ 0 < ev := by
  have hw := exDcf_wacc
  have hwpos : (0:ℝ) < 1 + dcfWacc exDcf := by rw [hw]; norm_num
  have htg : exDcf.tg = (0.03:ℝ) := rfl
  have hgt : exDcf.tg < (computeDcf exDcf).wacc := by
    rw [show (computeDcf exDcf).wacc = dcfWacc exDcf from rfl, hw, htg]
    norm_num
  refine ⟨hw, hgt, ?_⟩
  have hEV : (computeDcf exDcf).enterpriseValue =
      some (dcfPvSum exDcf +
        dcfUfcf exDcf 5 * (1 + exDcf.tg) / (dcfWacc exDcf - exDcf.tg) *
          dcfDf exDcf 5) := by
    show dcfEV exDcf = _
    rw [dcfEV, dcfPvTv, exDcf_tv, exDcf_years]
    rfl
  refine ⟨_, hEV, ?_⟩
  have d1 := dcfDf_pos exDcf 1 hwpos
  have d2 := dcfDf_pos exDcf 2 hwpos
  have d3 := dcfDf_pos exDcf 3 hwpos
  have d4 := dcfDf_pos exDcf 4 hwpos
  have d5 := dcfDf_pos exDcf 5 hwpos
  have u1 : (0:ℝ) < dcfUfcf exDcf 1 := by rw [exDcf_ufcf1]; norm_num
  have u2 : (0:ℝ) < dcfUfcf exDcf 2 := by rw [exDcf_ufcf2]; norm_num
  have u3 : (0:ℝ) < dcfUfcf exDcf 3 := by rw [exDcf_ufcf3]; norm_num
  have u4 : (0:ℝ) < dcfUfcf exDcf 4 := by rw [exDcf_ufcf4]; norm_num
  have u5 : (0:ℝ) < dcfUfcf exDcf 5 := by rw [exDcf_ufcf5]; norm_num
  have hpv : 0 < dcfPvSum exDcf := by
    rw [dcfPvSum, exDcf_years, show List.range 5 = [0, 1, 2, 3, 4] from rfl]
    norm_num only [List.map_cons, List.map_nil, List.sum_cons, List.sum_nil]
    have t1 := mul_pos u1 d1
    have t2 := mul_pos u2 d2
    have t3 := mul_pos u3 d3
    have t4 := mul_pos u4 d4
    have t5 := mul_pos u5 d5
    linarith
  have htv : (0:ℝ) < dcfUfcf exDcf 5 * (1 + exDcf.tg) / (dcfWacc exDcf - exDcf.tg) := by
    rw [exDcf_ufcf5, hw, htg]
    norm_num
  linarith [mul_pos htv d5]

/-! ### Claim C3 (POST business rule) -/

/-- Claim C3: for every input passing validation with the Gordon
terminal method, the `POST` handler rejects with the terminal-value
business error (distinct from validation) exactly when `WACC ≤ tg`; in
that case no success result is returned, and when `WACC > tg` the
computed result is returned. -/
theorem postDcf_gordon_iff (i : DcfInput) (hv : validate i = [])
    (hg : i.terminalMethod = TerminalMethod.gordon) :
    (postDcf i = Except.error DcfError.terminal ↔ (computeDcf i).wacc ≤ i.tg) ∧
    ((computeDcf i).wacc ≤ i.tg → ∀ o, postDcf i ≠ Except.ok o) ∧
    (i.tg < (computeDcf i).wacc → postDcf i = Except.ok (computeDcf i)) := by
  unfold postDcf
  rw [hv]
  by_cases h : (computeDcf i).wacc ≤ i.tg
  · rw [if_neg (by simp), if_pos ⟨hg, h⟩]
    exact ⟨⟨fun _ => h, fun _ => rfl⟩, fun _ o => by simp,
      fun hlt => absurd h (not_le.mpr hlt)⟩
  · rw [if_neg (by simp), if_neg (by rintro ⟨_, hc⟩; exact h hc)]
    exact ⟨⟨fun he => by simp at he, fun hc => absurd hc h⟩, fun hc => absurd hc h,
      fun _ => rfl⟩

theorem postDcf_witness :
    validate exDcf = [] ∧
    ((postDcf exDcf = Except.error DcfError.terminal ↔
        (computeDcf exDcf).wacc ≤ exDcf.tg) ∧
      ((computeDcf exDcf).wacc ≤ exDcf.tg → ∀ o, postDcf exDcf ≠ Except.ok o) ∧
      (exDcf.tg < (computeDcf exDcf).wacc →
        postDcf exDcf = Except.ok (computeDcf exDcf))) := by
  have hv : validate exDcf = [] := by norm_num [validate, exDcf]
  exact ⟨hv, postDcf_gordon_iff exDcf hv rfl⟩

/-! ### Claim C5 (sensitivity-grid base cell) -/

theorem exE_years : dcfN exE = 1 := by
  rw [dcfN, jsRound_eq exE.years 1 (by norm_num [exE]) (by norm_num [exE]),
    clamp_eq_self (by norm_num) (by norm_num)]
  rfl

theorem exE_wacc : dcfWacc exE = 0 := by
  rw [dcfWacc, dcfWe, dcfWd, dcfKe, dcfKd,
    clamp_eq_self (by norm_num [exE]) (by norm_num [exE])]
  norm_num [exE]

/-- Claim C5, counterexample: on `exE` the sensitivity grid's base cell
is non-finite (`none`) while the base DCF price per share is `10`: with
the exit-multiple method the grid (which always uses the Gordon formula,
with clamped axes) does not reproduce the base case. -/
theorem sens_base_cell_counterexample :
    sensBaseCell exE = none ∧ (computeDcf exE).pricePerShare = some 10 := by
  constructor
  · have hb : sensBaseCell exE =
        sensCell exE (clamp exE.tg 0 0.08) (clamp (dcfWacc exE) 0.01 0.5) := by
      simp only [sensBaseCell, sensWG, gGrid, waccGrid, List.map_cons, List.map_nil,
        List.getD_cons_succ, List.getD_cons_zero]
    rw [hb, clamp_eq_self (by norm_num [exE]) (by norm_num [exE]),
      show clamp (dcfWacc exE) 0.01 0.5 = 0.01 by
        rw [exE_wacc]; norm_num [clamp, max_def, min_def]]
    rw [sensCell, if_pos (by norm_num [exE])]
  · show dcfPx exE = some 10
    have htv : dcfTv exE = some 0 := by
      rw [dcfTv, if_pos (show exE.terminalMethod = TerminalMethod.exit from rfl),
        exE_years]
      norm_num [dcfEbitda, dcfMargin, dcfRev, exE_years, exE]
    have hdf : dcfDf exE 1 = 1 := by
      rw [dcfDf, exE_wacc]
      norm_num [exE, Real.one_rpow]
    have hufcf : dcfUfcf exE 1 = 0 := by
      simp only [dcfUfcf, dcfNopat, dcfEbit, dcfEbitda, dcfMargin, dcfTax, dcfDa,
        dcfCapex, dcfDNwc, dcfNwc, dcfRev, exE_years]
      norm_num [exE, max_def]
    have hpv : dcfPvSum exE = 0 := by
      rw [dcfPvSum, exE_years, show List.range 1 = [0] from rfl]
      simp [hufcf, hdf]
    rw [dcfPx, if_neg (by norm_num [exE]), dcfEquity, dcfEV, dcfPvTv, htv, exE_years]
    simp [hpv, hdf]
    norm_num [exE]

/-- Claim C5 (amended): for every DcfAssumptions with the Gordon
terminal method whose WACC lies inside the grid's WACC clamp range
`[1%, 50%]` and whose terminal growth lies inside the growth clamp
range `[0, 8%]`, the sensitivity grid's base-case cell (middle row,
middle column) equals the base DCF price per share exactly (both are
`NaN`/`none` together when `WACC - g ≤ 0` or `shares = 0`). -/
theorem sens_base_cell_eq_px (i : DcfInput)
    (hm : i.terminalMethod = TerminalMethod.gordon)
    (h1 : 0.01 ≤ dcfWacc i) (h2 : dcfWacc i ≤ 0.5)
    (h3 : 0 ≤ i.tg) (h4 : i.tg ≤ 0.08) :
    sensBaseCell i = (computeDcf i).pricePerShare := by
  show sensBaseCell i = dcfPx i
  have hb : sensBaseCell i = sensCell i i.tg (dcfWacc i) := by
    simp only [sensBaseCell, sensWG, gGrid, waccGrid, List.map_cons, List.map_nil,
      List.getD_cons_succ, List.getD_cons_zero]
    rw [clamp_eq_self h3 h4, clamp_eq_self h1 h2]
  rw [hb]
  by_cases hden : dcfWacc i - i.tg ≤ 0
  · simp [sensCell, dcfPx, dcfEquity, dcfEV, dcfPvTv, dcfTv, hm, hden, ite_self]
  · simp [sensCell, dcfPx, dcfEquity, dcfEV, dcfPvTv, dcfTv, hm, hden]

theorem sens_base_cell_witness :
    (0.01 ≤ dcfWacc exDcf ∧ dcfWacc exDcf ≤ 0.5 ∧ 0 ≤ exDcf.tg ∧ exDcf.tg ≤ 0.08) ∧
    sensBaseCell exDcf = (computeDcf exDcf).pricePerShare := by
  have h1 : (0.01:ℝ) ≤ dcfWacc exDcf := by rw [exDcf_wacc]; norm_num
  have h2 : dcfWacc exDcf ≤ 0.5 := by rw [exDcf_wacc]; norm_num
  have h3 : (0:ℝ) ≤ exDcf.tg := by norm_num [exDcf]
  have h4 : exDcf.tg ≤ 0.08 := by norm_num [exDcf]
  exact ⟨⟨h1, h2, h3, h4⟩, sens_base_cell_eq_px exDcf rfl h1 h2 h3 h4⟩

/-! ### Claims C6, C10 (Monte Carlo simulator) -/

theorem foldl_mul_const (c : ℝ) :
    ∀ (l : List ℕ) (s : ℝ), l.foldl (fun a _ => a * c) s = s * c ^ l.length := by
  intro l
  induction l with
  | nil => intro s; simp
  | cons x xs ih =>
    intro s
    simp only [List.foldl_cons, List.length_cons, ih, pow_succ]
    ring

theorem mcSorted_length (s0 mu sigma years : ℝ) (steps n : ℕ) (draw : ℕ → ℝ) :
    (mcSorted s0 mu sigma years steps n draw).length = n := by
  rw [mcSorted, List.length_insertionSort _ _, mcPaths, List.length_map,
    List.length_range]

theorem mcIdx_nonneg (p : ℝ) (m : ℝ) (hm : 0 ≤ m) : 0 ≤ ⌊clamp p 0 0.9999 * m⌋ :=
  Int.floor_nonneg.mpr (mul_nonneg (clamp_lower p 0 0.9999) hm)

theorem mcIdx_lt (p : ℝ) (n : ℕ) (hn : 1 ≤ n) :
    (⌊clamp p 0 0.9999 * (n : ℝ)⌋).toNat < n := by
  have h0 : (0:ℝ) < n := by exact_mod_cast hn
  have h1 : clamp p 0 0.9999 * (n : ℝ) ≤ 0.9999 * n :=
    mul_le_mul_of_nonneg_right (clamp_upper p 0 0.9999 (by norm_num)) n.cast_nonneg
  have h2 : (0.9999 : ℝ) * n < n := by nlinarith
  have h3 : ⌊clamp p 0 0.9999 * (n : ℝ)⌋ < (n : ℤ) :=
    Int.floor_lt.mpr (by push_cast; linarith)
  omega

theorem mcIdx_mono (p q : ℝ) (m : ℝ) (hm : 0 ≤ m) (hpq : p ≤ q) :
    (⌊clamp p 0 0.9999 * m⌋).toNat ≤ (⌊clamp q 0 0.9999 * m⌋).toNat := by
  have hc : clamp p 0 0.9999 ≤ clamp q 0 0.9999 :=
    max_le_max (le_refl 0) (min_le_min (le_refl _) hpq)
  have h1 := mul_le_mul_of_nonneg_right hc hm
  have h2 := Int.floor_le_floor h1
  omega

theorem sorted_getD_mono (l : List ℝ) (hs : l.Sorted (· ≤ ·)) (i j : ℕ)
    (hij : i ≤ j) (hj : j < l.length) : l.getD i 0 ≤ l.getD j 0 := by
  have hi : i < l.length := lt_of_le_of_lt hij hj
  rw [List.getD_eq_getElem l 0 hi, List.getD_eq_getElem l 0 hj]
  have h := hs.rel_get_of_le (a := ⟨i, hi⟩) (b := ⟨j, hj⟩) hij
  simpa [List.get_eq_getElem] using h

/-- Claim C6: with `sigma = 0`, at least one step and one path, and any
stream of uniform(0,1) draws, every terminal path value equals
`s0 * exp(mu * years)` exactly (the random term has coefficient zero),
and the reported p05, p50, p95 and mean are all equal to it. -/
theorem mc_sigma_zero (s0 mu sigma years : ℝ) (steps n : ℕ) (draw : ℕ → ℝ)
    (hsig : sigma = 0) (hs : 1 ≤ steps) (hn : 1 ≤ n)
    (hd : ∀ k, 0 ≤ draw k ∧ draw k < 1) :
    (∀ v ∈ mcPaths s0 mu sigma years steps n draw, v = s0 * Real.exp (mu * years)) ∧
    (logNormalMonteCarlo s0 mu sigma years steps n draw).p05 =
      s0 * Real.exp (mu * years) ∧
    (logNormalMonteCarlo s0 mu sigma years steps n draw).p50 =
      s0 * Real.exp (mu * years) ∧
    (logNormalMonteCarlo s0 mu sigma years steps n draw).p95 =
      s0 * Real.exp (mu * years) ∧
    (logNormalMonteCarlo s0 mu sigma years steps n draw).mean =
      s0 * Real.exp (mu * years) := by
  subst hsig
  have hsne : (steps : ℝ) ≠ 0 := Nat.cast_ne_zero.mpr (by omega)
  have hpath : ∀ k, mcPath s0 mu 0 years steps draw k =
      s0 * Real.exp (mu * years) := by
    intro k
    rw [mcPath]
    have hf : (fun (s : ℝ) (i : ℕ) =>
        mcStep mu 0 (years / steps) s
          (boxMuller (jsOrR (draw (2 * (k * steps + i))) 1e-12)
            (draw (2 * (k * steps + i) + 1)))) =
        fun (s : ℝ) (_ : ℕ) => s * Real.exp (mu * (years / steps)) := by
      funext s i
      rw [mcStep]
      norm_num
    rw [hf, foldl_mul_const, List.length_range, ← Real.exp_nat_mul]
    congr 1
    field_simp
  have hmem : ∀ x ∈ mcPaths s0 mu 0 years steps n draw,
      x = s0 * Real.exp (mu * years) := by
    intro x hx
    rw [mcPaths] at hx
    obtain ⟨k, hk, rfl⟩ := List.mem_map.mp hx
    exact hpath k
  have hsortmem : ∀ x ∈ mcSorted s0 mu 0 years steps n draw,
      x = s0 * Real.exp (mu * years) := fun x hx =>
    hmem x ((List.perm_insertionSort _ _).mem_iff.mp hx)
  have hsortlen := mcSorted_length s0 mu 0 years steps n draw
  have hq : ∀ p : ℝ, mcQ (mcSorted s0 mu 0 years steps n draw) p =
      s0 * Real.exp (mu * years) := by
    intro p
    rw [mcQ]
    have hidx : (⌊clamp p 0 0.9999 *
        ((mcSorted s0 mu 0 years steps n draw).length : ℝ)⌋).toNat <
        (mcSorted s0 mu 0 years steps n draw).length := by
      rw [hsortlen]
      exact mcIdx_lt p n hn
    rw [List.getD_eq_getElem _ 0 hidx]
    exact hsortmem _ (List.getElem_mem hidx)
  have hmean : mcMean (mcSorted s0 mu 0 years steps n draw) =
      s0 * Real.exp (mu * years) := by
    have hrep : mcSorted s0 mu 0 years steps n draw =
        List.replicate n (s0 * Real.exp (mu * years)) := by
      rw [List.eq_replicate_iff]
      exact ⟨hsortlen, hsortmem⟩
    have hne : (n : ℝ) ≠ 0 := Nat.cast_ne_zero.mpr (by omega)
    rw [mcMean, hrep, List.sum_replicate, List.length_replicate, nsmul_eq_mul]
    field_simp
  exact ⟨hmem, hq 0.05, hq 0.5, hq 0.95, hmean⟩

theorem mc_sigma_zero_witness :
    (∀ k : ℕ, 0 ≤ (fun _ : ℕ => (1:ℝ)/2) k ∧ (fun _ : ℕ => (1:ℝ)/2) k < 1) ∧
    ((∀ v ∈ mcPaths 1 0 0 1 1 1 (fun _ : ℕ => (1:ℝ)/2),
        v = 1 * Real.exp (0 * 1)) ∧
      (logNormalMonteCarlo 1 0 0 1 1 1 (fun _ : ℕ => (1:ℝ)/2)).p05 =
        1 * Real.exp (0 * 1) ∧
      (logNormalMonteCarlo 1 0 0 1 1 1 (fun _ : ℕ => (1:ℝ)/2)).p50 =
        1 * Real.exp (0 * 1) ∧
      (logNormalMonteCarlo 1 0 0 1 1 1 (fun _ : ℕ => (1:ℝ)/2)).p95 =
        1 * Real.exp (0 * 1) ∧
      (logNormalMonteCarlo 1 0 0 1 1 1 (fun _ : ℕ => (1:ℝ)/2)).mean =
        1 * Real.exp (0 * 1)) :=
  ⟨fun _ => ⟨by norm_num, by norm_num⟩,
    mc_sigma_zero 1 0 0 1 1 1 (fun _ => 1/2) rfl (le_refl 1) (le_refl 1)
      (fun _ => ⟨by norm_num, by norm_num⟩)⟩

/-- Claim C10: for any invocation with at least one path and any stream
of uniform(0,1) draws, the quantile index
`floor(clamp(p, 0, 0.9999) * n)` is nonnegative and in bounds for the
sorted terminal-value array for every probability `p`, and the reported
quantiles satisfy `p05 ≤ p50 ≤ p95`. -/
theorem mc_quantile_bounds (s0 mu sigma years : ℝ) (steps n : ℕ) (draw : ℕ → ℝ)
    (hn : 1 ≤ n) (hd : ∀ k, 0 ≤ draw k ∧ draw k < 1) :
    (∀ p : ℝ, 0 ≤ ⌊clamp p 0 0.9999 *
        ((mcSorted s0 mu sigma years steps n draw).length : ℝ)⌋ ∧
      (⌊clamp p 0 0.9999 *
        ((mcSorted s0 mu sigma years steps n draw).length : ℝ)⌋).toNat <
        (mcSorted s0 mu sigma years steps n draw).length) ∧
    (logNormalMonteCarlo s0 mu sigma years steps n draw).p05 ≤
      (logNormalMonteCarlo s0 mu sigma years steps n draw).p50 ∧
    (logNormalMonteCarlo s0 mu sigma years steps n draw).p50 ≤
      (logNormalMonteCarlo s0 mu sigma years steps n draw).p95 := by
  have hlen := mcSorted_length s0 mu sigma years steps n draw
  have hsorted : (mcSorted s0 mu sigma years steps n draw).Sorted (· ≤ ·) :=
    List.sorted_insertionSort _ _
  have hmlen : (0:ℝ) ≤ ((mcSorted s0 mu sigma years steps n draw).length : ℝ) :=
    Nat.cast_nonneg _
  refine ⟨fun p => ⟨mcIdx_nonneg p _ hmlen, by rw [hlen]; exact mcIdx_lt p n hn⟩,
    ?_, ?_⟩
  · show mcQ (mcSorted s0 mu sigma years steps n draw) 0.05 ≤
      mcQ (mcSorted s0 mu sigma years steps n draw) 0.5
    rw [mcQ, mcQ]
    refine sorted_getD_mono _ hsorted _ _ (mcIdx_mono 0.05 0.5 _ hmlen (by norm_num))
      ?_
    rw [hlen]
    exact mcIdx_lt 0.5 n hn
  · show mcQ (mcSorted s0 mu sigma years steps n draw) 0.5 ≤
      mcQ (mcSorted s0 mu sigma years steps n draw) 0.95
    rw [mcQ, mcQ]
    refine sorted_getD_mono _ hsorted _ _ (mcIdx_mono 0.5 0.95 _ hmlen (by norm_num))
      ?_
    rw [hlen]
    exact mcIdx_lt 0.95 n hn

theorem mc_quantile_bounds_witness :
    ((1:ℕ) ≤ 1 ∧ ∀ k : ℕ, 0 ≤ (fun _ : ℕ => (1:ℝ)/2) k ∧
      (fun _ : ℕ => (1:ℝ)/2) k < 1) ∧
    ((∀ p : ℝ, 0 ≤ ⌊clamp p 0 0.9999 *
        ((mcSorted 1 0 1 1 1 1 (fun _ : ℕ => (1:ℝ)/2)).length : ℝ)⌋ ∧
      (⌊clamp p 0 0.9999 *
        ((mcSorted 1 0 1 1 1 1 (fun _ : ℕ => (1:ℝ)/2)).length : ℝ)⌋).toNat <
        (mcSorted 1 0 1 1 1 1 (fun _ : ℕ => (1:ℝ)/2)).length) ∧
    (logNormalMonteCarlo 1 0 1 1 1 1 (fun _ : ℕ => (1:ℝ)/2)).p05 ≤
      (logNormalMonteCarlo 1 0 1 1 1 1 (fun _ : ℕ => (1:ℝ)/2)).p50 ∧
    (logNormalMonteCarlo 1 0 1 1 1 1 (fun _ : ℕ => (1:ℝ)/2)).p50 ≤
      (logNormalMonteCarlo 1 0 1 1 1 1 (fun _ : ℕ => (1:ℝ)/2)).p95) :=
  ⟨⟨le_refl 1, fun _ => ⟨by norm_num, by norm_num⟩⟩,
    mc_quantile_bounds 1 0 1 1 1 1 (fun _ => 1/2) (le_refl 1)
      (fun _ => ⟨by norm_num, by norm_num⟩)⟩

